import Mathlib

/-!
Verification development for the data-snapshot value-capture engine
(`snapshotCapture.ts`).  The TypeScript source is shallowly embedded:

* `parsePrimitiveValue`, `serializeVariable`, `sanitizeName`, `fastSerialize`
  and `captureVariable` are translated into pure Lean functions;
* the debug-protocol session is modelled as an oracle `fetch : Nat → List
  DapVariable` mapping a variables-reference handle to the child list the
  protocol would return (`response.variables ?? []`);
* the JavaScript `Number(...)` builtin is modelled as a parameter
  `numParse : String → Option Rat`, with `none` standing for `NaN`;
* the cancellation token is modelled as a `Bool` (a walk performed while
  cancellation is requested sees `true` at every re-entry);
* the stateful `SerializeCounter` and `Semaphore` classes become explicit
  state machines with step functions, and call sequences become event lists;
* effects (protocol requests, file writes, user-facing error messages) are
  made observable by returning them alongside results.
-/

/-! ## Character and string helpers (JS string operations on `String.data`) -/

/-- The character class `[a-zA-Z0-9_-]` from `sanitizeName`'s regular
expression. -/
def isWordChar (c : Char) : Bool :=
  c.isAlpha || c.isDigit || c == '_' || c == '-'

/-- JS `\d` digit test used by `/^\d+$/` and `/^-?\d+(\.\d+)?$/`. -/
def isDigitChar (c : Char) : Bool :=
  '0' ≤ c && c ≤ '9'

/-- Helper for the decimal pattern: the tail after the integer digits must be
empty or a dot followed by one or more digits. -/
def fracPart : List Char → Bool
  | [] => true
  | '.' :: rest => !rest.isEmpty && rest.all isDigitChar
  | _ => false

/-- `\d+(\.\d+)?` anchored at both ends. -/
def digitsThenFrac (l : List Char) : Bool :=
  !(l.takeWhile isDigitChar).isEmpty && fracPart (l.dropWhile isDigitChar)

/-- The test `/^-?\d+(\.\d+)?$/.test raw` from `parsePrimitiveValue`. -/
def numericLike (s : String) : Bool :=
  match s.data with
  | '-' :: rest => digitsThenFrac rest
  | l => digitsThenFrac l

/-- The test `/^\d+$/.test name` used for array-like classification. -/
def isIndexName (s : String) : Bool :=
  !s.data.isEmpty && s.data.all isDigitChar

/-- `name.startsWith "[["` — the reserved internal-slot marker. -/
def isInternalSlot (s : String) : Bool :=
  match s.data with
  | '[' :: '[' :: _ => true
  | _ => false

/-- JS `s.slice 1 (-1)` — drops the first and last character. -/
def sliceInner (s : String) : String :=
  ⟨s.data.tail.dropLast⟩

/-- JS whitespace test for `String.prototype.trim` (common subset). -/
def isWsp (c : Char) : Bool :=
  c == ' ' || c == '\t' || c == '\n' || c == '\r'

/-- JS `s.trim ()`. -/
def jsTrim (s : String) : String :=
  ⟨((s.data.dropWhile isWsp).reverse.dropWhile isWsp).reverse⟩

/-- `/^[\[{]/.test expression` — does the text start with an array/object
literal opening character? -/
def opensLiteral (s : String) : Bool :=
  match s.data with
  | '[' :: _ => true
  | '\x7b' :: _ => true
  | _ => false

/-- `expression.includes "\n"`. -/
def containsNewline (s : String) : Bool :=
  s.data.any (· == '\n')

/-! ## Data model -/

/-- A Materialized Value: the JSON-safe output of decoding or expanding a
remote variable reference. -/
inductive MValue where
  | undef : MValue
  | null : MValue
  | bool : Bool → MValue
  | num : Rat → MValue
  | str : String → MValue
  | arr : List MValue → MValue
  | obj : List (String × MValue) → MValue

/-- A Remote Variable Reference as supplied by the debug protocol
(`DapVariable` in the source): display name, stringified value, optional type
tag, and the expandable handle (`variablesReference`, non-zero only for
composites). -/
structure DapVariable where
  name : String
  value : String
  type : Option String
  varRef : Nat

/-! ## Primitive Value Decoder (`parsePrimitiveValue`) -/

/-- The final two rules of `parsePrimitiveValue` (reached when no earlier
rule produced a value): unwrap matching double or single quotes, otherwise
return the raw text verbatim. -/
def stringFallback (raw : String) : MValue :=
  if raw.data.head? = some '"' ∧ raw.data.getLast? = some '"' then
    MValue.str (sliceInner raw)
  else if raw.data.head? = some '\'' ∧ raw.data.getLast? = some '\'' then
    MValue.str (sliceInner raw)
  else MValue.str raw

/-- Translation of `parsePrimitiveValue raw type`.  `numParse` models the JS
`Number` builtin; `numParse raw = none` models `isNaN (Number raw)`. -/
def parsePrimitiveValue (numParse : String → Option Rat)
    (raw : String) (type : Option String) : MValue :=
  if raw = "undefined" then MValue.undef
  else if raw = "null" then MValue.null
  else if raw = "true" then MValue.bool true
  else if raw = "false" then MValue.bool false
  else
    match (if type = some "number" ∨ (type = none ∧ numericLike raw = true)
           then numParse raw else none) with
    | some n => MValue.num n
    | none => stringFallback raw

/-! ## Graph Walker (`serializeVariable`)

The walker returns the materialized value together with the list of
`variables`-request handles it issued, in request order.  The concurrent
`Promise.all` fan-out resolves children in the protocol's returned order, so
the sequential recursion below produces the same value tree and the same set
of issued requests as the source. -/

def serializeVariable (fetch : Nat → List DapVariable)
    (numParse : String → Option Rat) (cancelled : Bool)
    (v : DapVariable) (depth maxDepth : Nat) : MValue × List Nat :=
  if cancelled then (MValue.str "[cancelled]", [])
  else if h : v.varRef = 0 ∨ maxDepth ≤ depth then
    if v.varRef ≠ 0 then
      (MValue.str ("[unresolved: " ++ v.type.getD "object" ++ "]"), [])
    else (parsePrimitiveValue numParse v.value v.type, [])
  else
    let children := fetch v.varRef
    if children.length > 0 && children.all (fun c => isIndexName c.name) then
      let results := children.map fun c =>
        serializeVariable fetch numParse cancelled c (depth + 1) maxDepth
      (MValue.arr (results.map Prod.fst),
        v.varRef :: (results.map Prod.snd).flatten)
    else
      let relevant := children.filter fun c => !isInternalSlot c.name
      let results := relevant.map fun c =>
        (c.name, serializeVariable fetch numParse cancelled c (depth + 1) maxDepth)
      (MValue.obj (results.map fun p => (p.1, p.2.1)),
        v.varRef :: (results.map fun p => p.2.2).flatten)
termination_by maxDepth - depth
decreasing_by
  all_goals (push_neg at h; omega)

/-! ## Progress Counter (`SerializeCounter`)

The class fields become a state record; `addItems` / `completeItem` become a
step function that also returns the percentage emitted to the progress sink,
if any.  `Math.floor ((completed / total) * 100)` is modelled with exact
natural division `completed * 100 / total`; the claims under check (dedup,
cap at 99, monotonicity behaviour) do not depend on double rounding. -/

structure SerializeCounter where
  total : Nat
  completed : Nat
  lastPct : Int

/-- Field initializers: `total = 0`, `completed = 0`, `lastPct = -1`. -/
def SerializeCounter.init : SerializeCounter := ⟨0, 0, -1⟩

/-- The percentage computed inside `report`:
`Math.min (99, Math.floor ((completed / total) * 100))`. -/
def SerializeCounter.pctNow (s : SerializeCounter) : Int :=
  min 99 ((s.completed * 100 / s.total : Nat) : Int)

/-- The private `report` method: returns the updated state and the emitted
percentage, or `none` when nothing is reported. -/
def SerializeCounter.report (s : SerializeCounter) :
    SerializeCounter × Option Int :=
  if s.total = 0 then (s, none)
  else
    let pct := s.pctNow
    if pct = s.lastPct then (s, none)
    else ({ s with lastPct := pct }, some pct)

/-- A call to one of the two public methods. -/
inductive CounterOp where
  | addItems : Nat → CounterOp
  | completeItem : CounterOp
deriving DecidableEq

/-- One public method call: `addItems n` / `completeItem`, each followed by
`report`. -/
def SerializeCounter.step (s : SerializeCounter) :
    CounterOp → SerializeCounter × Option Int
  | .addItems n => SerializeCounter.report { s with total := s.total + n }
  | .completeItem =>
      SerializeCounter.report { s with completed := s.completed + 1 }

/-- Runs a call sequence, collecting the emitted percentages in order. -/
def SerializeCounter.run (s : SerializeCounter) :
    List CounterOp → SerializeCounter × List Int
  | [] => (s, [])
  | op :: ops =>
    let p := SerializeCounter.step s op
    let r := SerializeCounter.run p.1 ops
    (r.1, p.2.toList ++ r.2)

/-- The emission trace of a call sequence against a fresh counter. -/
def counterEmissions (ops : List CounterOp) : List Int :=
  (SerializeCounter.run SerializeCounter.init ops).2

/-- `l` is non-decreasing (adjacent pairs). -/
def chainLe : List Int → Bool
  | [] => true
  | [_] => true
  | a :: b :: t => decide (a ≤ b) && chainLe (b :: t)

/-- no two adjacent elements of `l` are equal. -/
def chainNe : List Int → Bool
  | [] => true
  | [_] => true
  | a :: b :: t => decide (a ≠ b) && chainNe (b :: t)

/-! ## Bounded Concurrency Gate (`Semaphore`)

`active` and the FIFO `queue` become a state record.  The `run` method's
lifecycle is decomposed into the events that interleave on the single JS
thread: an *arrival* (the `acquire` call: admit immediately or append to the
queue) and a *completion* (the `finally` release: decrement, then hand the
slot to the shifted head waiter, if any).  A completion event is only
meaningful while some task is active, which the validity predicate below
records. -/

structure Semaphore where
  active : Nat
  queue : List Nat
deriving DecidableEq

/-- Field initializers: `active = 0`, `queue = []`. -/
def Semaphore.init : Semaphore := ⟨0, []⟩

/-- The `acquire` method for a caller tagged `id`: the `Bool` is true when the
caller is admitted immediately rather than queued. -/
def Semaphore.acquire (limit : Nat) (s : Semaphore) (id : Nat) :
    Semaphore × Bool :=
  if s.active < limit then ({ s with active := s.active + 1 }, true)
  else ({ s with queue := s.queue ++ [id] }, false)

/-- The `release` method: decrement `active`, shift the queue, and if a waiter
was queued re-increment `active` and resolve that waiter (returned as the
second component). -/
def Semaphore.release (s : Semaphore) : Semaphore × Option Nat :=
  match s.queue with
  | [] => ({ active := s.active - 1, queue := [] }, none)
  | next :: rest => ({ active := s.active - 1 + 1, queue := rest }, some next)

/-- An event observable at the gate. -/
inductive SemEvent where
  | arrive : Nat → SemEvent
  | complete : SemEvent

/-- State transition for one event. -/
def Semaphore.step (limit : Nat) (s : Semaphore) : SemEvent → Semaphore
  | .arrive id => (Semaphore.acquire limit s id).1
  | .complete => (Semaphore.release s).1

/-- All states reached while executing an event list (one entry per event). -/
def Semaphore.exec (limit : Nat) (s : Semaphore) :
    List SemEvent → List Semaphore
  | [] => []
  | e :: es =>
    let s' := Semaphore.step limit s e
    s' :: Semaphore.exec limit s' es

/-- An event list is valid from `s` when every completion happens while at
least one task is active (releases are only triggered by admitted tasks). -/
def Semaphore.validFrom (limit : Nat) (s : Semaphore) : List SemEvent → Bool
  | [] => true
  | e :: es =>
    (match e with
     | .complete => decide (0 < s.active)
     | .arrive _ => true) &&
    Semaphore.validFrom limit (Semaphore.step limit s e) es

/-! ## Fast-Path Serializer (`fastSerialize`)

The effectful steps inside the `try` block are modelled as `Except`-valued
oracles; the surrounding `try/catch/finally` is reproduced explicitly so that
an escaped exception would be observable as an `Except.error` result.  The
`Bool` in the result records that the `finally` cleanup (unlink of the
temporary artifact) was reached. -/

structure FastEnv where
  /-- `session.customRequest "evaluate" ...` — `Except.error` models a
  rejected evaluation, `Except.ok r` the response's `result` string. -/
  evalResp : Except String String
  /-- `fs.readFileSync tmpFile "utf8"` — `Except.error` models a missing
  artifact. -/
  readFile : Except String String
  /-- `JSON.parse json` — `Except.error` models malformed content. -/
  jsonParse : String → Except String MValue
  /-- `fs.unlinkSync tmpFile` — `Except.error` models a removal failure. -/
  unlink : Except String Unit

/-- Substring scan for the characters `ok`. -/
def hasOkSub : List Char → Bool
  | [] => false
  | 'o' :: 'k' :: _ => true
  | _ :: rest => hasOkSub rest

/-- `resp.result.includes "ok"`. -/
def includesOk (s : String) : Bool :=
  hasOkSub s.data

/-- The body of the `try` block, with each failable step propagating its
exception. -/
def fastBody (env : FastEnv) : Except String (Option MValue) := do
  let r ← env.evalResp
  if includesOk r then
    let json ← env.readFile
    let v ← env.jsonParse json
    return some v
  else
    return none

/-- `try ... catch e ...`. -/
def jsCatch (x : Except String α) (h : String → Except String α) :
    Except String α :=
  match x with
  | .ok a => .ok a
  | .error e => h e

/-- Translation of `fastSerialize`: the `catch` swallows any body failure into
the `undefined` (here `none`) result, and the `finally` always attempts the
unlink, itself wrapped in an inner `try/catch` so a removal failure cannot
escape. -/
def fastSerialize (env : FastEnv) : Except String (Option MValue) × Bool :=
  let res := jsCatch (fastBody env) fun _ => .ok none
  let cleanup := jsCatch (Except.map (fun _ => ()) env.unlink) fun _ => .ok ()
  (match cleanup with
   | .ok _ => res
   | .error e => .error e,
   true)

/-! ## Capture Orchestrator (`captureVariable`)

External collaborators (active session, editor selection, protocol responses,
configuration, the clock) are supplied through an environment record; the
call's observable effects (protocol requests, the files written, the
user-facing error messages) are returned alongside the result.  The outcome
of `fastSerialize` is abstracted to its returned value (`none` =
"unavailable"), its internals being modelled separately by `fastSerialize`
above. -/

/-- `name.replace (/[^a-zA-Z0-9_-]/g) "_" |>.slice 0 64`. -/
def sanitizeName (name : String) : String :=
  ⟨((name.data.map fun c => if isWordChar c then c else '_').take 64)⟩

/-- `now.toISOString().replace (/[:.]/g) "-"`. -/
def sanitizeTimestamp (iso : String) : String :=
  ⟨iso.data.map fun c => if c == ':' || c == '.' then '-' else c⟩

/-- The persisted snapshot record (`Snapshot` interface, flattened). -/
structure Snapshot where
  version : Nat
  capturedAt : String
  sourceFile : String
  sourceLine : Nat
  functionName : String
  frameName : String
  frameId : Nat
  vars : List (String × MValue)

/-- A DAP stack frame (`DapStackFrame`). -/
structure DapStackFrame where
  id : Nat
  name : String
  sourcePath : Option String
  line : Option Nat

/-- An `evaluate` response for the slow path. -/
structure EvalResp where
  result : String
  type : Option String
  variablesReference : Nat

/-- A debug-protocol request issued by the orchestrator. -/
inductive DapCall where
  | threadsReq : DapCall
  | stackTraceReq : Nat → DapCall
  | evaluateReq : Nat → DapCall
  | variablesReq : Nat → DapCall

/-- The environment of one `captureVariable` invocation. -/
structure CaptureEnv where
  /-- `vscode.debug.activeDebugSession` present? -/
  hasSession : Bool
  /-- `editor?.document.getText (editor.selection)` (`none`: no editor). -/
  selection : Option String
  /-- `threads` response (`none` models a timeout/rejection). -/
  threadsResp : Option (List Nat)
  /-- `stackTrace` response (`none` models a timeout/rejection). -/
  stackResp : Option (List DapStackFrame)
  /-- Outcome of the fast path (`none` = unavailable). -/
  fastResult : Option MValue
  /-- Slow-path `evaluate` response (`none` models a rejection). -/
  evalResp : Option EvalResp
  /-- `variables` request oracle for the slow-path walk. -/
  fetch : Nat → List DapVariable
  /-- JS `Number` model for the primitive decoder. -/
  numParse : String → Option Rat
  /-- `token.isCancellationRequested`. -/
  cancelled : Bool
  /-- Configuration `data-snapshot.maxDepth`. -/
  maxDepth : Nat
  /-- `now.toISOString ()`. -/
  nowIso : String

/-- The observable outcome of one `captureVariable` invocation. -/
structure CaptureOut where
  result : Option (String × Snapshot)
  calls : List DapCall
  writes : List String
  errors : List String

/-- Lines 445–472 of the source: the cancellation check, snapshot assembly,
suggested file name and write. -/
def captureFinish (env : CaptureEnv) (workspaceRoot expression : String)
    (topFrame : DapStackFrame) (serialized : MValue) (calls : List DapCall) :
    CaptureOut :=
  if env.cancelled then
    { result := none, calls := calls, writes := [], errors := [] }
  else
    let timestamp := sanitizeTimestamp env.nowIso
    let functionName := topFrame.name
    let snapshot : Snapshot :=
      { version := 1
        capturedAt := env.nowIso
        sourceFile := topFrame.sourcePath.getD ""
        sourceLine := topFrame.line.getD 0
        functionName := functionName
        frameName := topFrame.name
        frameId := topFrame.id
        vars := [(expression, serialized)] }
    let safeName :=
      sanitizeName functionName ++ "_" ++ sanitizeName expression ++ "_" ++
        timestamp
    let snapshotPath :=
      workspaceRoot ++ "/.snapshots/snapshots/" ++ safeName ++ ".json"
    { result := some (snapshotPath, snapshot)
      calls := calls
      writes := [snapshotPath]
      errors := [] }

/-- Translation of `captureVariable workspaceRoot`. -/
def captureVariable (env : CaptureEnv) (workspaceRoot : String) : CaptureOut :=
  if ¬ env.hasSession then
    { result := none, calls := [], writes := []
      errors := ["Data Snapshot: No active debug session."] }
  else
    let expression := jsTrim (env.selection.getD "")
    if expression = "" then
      { result := none, calls := [], writes := []
        errors :=
          ["Data Snapshot: Select a variable or expression in the editor first."] }
    else if opensLiteral expression || containsNewline expression then
      { result := none, calls := [], writes := []
        errors :=
          ["Data Snapshot: \"" ++ expression ++ "\" is not a valid expression. " ++
            "Select a single variable name or property access."] }
    else
      match env.threadsResp with
      | none =>
        { result := none, calls := [DapCall.threadsReq], writes := []
          errors := ["Data Snapshot: Timed out waiting for threads."] }
      | some threads =>
        match threads with
        | [] =>
          { result := none, calls := [DapCall.threadsReq], writes := []
            errors := ["Data Snapshot: No threads found."] }
        | threadId :: _ =>
          match env.stackResp with
          | none =>
            { result := none
              calls := [DapCall.threadsReq, DapCall.stackTraceReq threadId]
              writes := []
              errors := ["Data Snapshot: Timed out waiting for stack trace."] }
          | some frames =>
            match frames with
            | [] =>
              { result := none
                calls := [DapCall.threadsReq, DapCall.stackTraceReq threadId]
                writes := []
                errors := ["Data Snapshot: No stack frames."] }
            | topFrame :: _ =>
              let baseCalls :=
                [DapCall.threadsReq, DapCall.stackTraceReq threadId,
                  DapCall.evaluateReq topFrame.id]
              match env.fastResult with
              | some v =>
                captureFinish env workspaceRoot expression topFrame v baseCalls
              | none =>
                match env.evalResp with
                | none =>
                  { result := none
                    calls := baseCalls ++ [DapCall.evaluateReq topFrame.id]
                    writes := []
                    errors := ["Data Snapshot: Could not evaluate."] }
                | some resp =>
                  let dapVar : DapVariable :=
                    { name := expression, value := resp.result
                      type := resp.type, varRef := resp.variablesReference }
                  let walked :=
                    serializeVariable env.fetch env.numParse env.cancelled
                      dapVar 0 env.maxDepth
                  captureFinish env workspaceRoot expression topFrame walked.1
                    (baseCalls ++ [DapCall.evaluateReq topFrame.id] ++
                      walked.2.map DapCall.variablesReq)

/-! ## Test fixtures and property predicates -/

/-- A `Number` model that yields `NaN` on every input (used where the parse
result is irrelevant or where the JS parse is indeed `NaN`). -/
def np0 : String → Option Rat := fun _ => none

/-- A `Number` model defined on the inputs concrete witnesses use. -/
def npW : String → Option Rat :=
  fun s => if s = "42" then some 42 else none

/-- The synthetic composite reference "nested to depth `D`" from §8 of the
spec: node `r` (for `r < D`) is a composite whose single child is node
`r + 1`; node `D` is a primitive leaf. -/
def chainVar (D r : Nat) : DapVariable :=
  { name := if r = 0 then "x" else "c"
    value := if r = D then "1" else "Object"
    type := none
    varRef := if r < D then r + 1 else 0 }

/-- Protocol oracle for the depth-`D` chain. -/
def chainFetch (D : Nat) : Nat → List DapVariable :=
  fun ref => if 1 ≤ ref ∧ ref ≤ D then [chainVar D ref] else []

/-- The materialized value the walker produces for the chain under a depth
budget of `m`: `m` singleton mappings wrapping the unresolved sentinel. -/
def chainNest : Nat → MValue
  | 0 => MValue.str "[unresolved: object]"
  | m + 1 => MValue.obj [("c", chainNest m)]

/-- `[s, s + 1, ..., s + n - 1]`: the handles fetched along the chain. -/
def refSeq : Nat → Nat → List Nat
  | _, 0 => []
  | s, n + 1 => s :: refSeq (s + 1) n

/-- Is this value the unresolved-sentinel string? -/
def isUnresolvedStr : MValue → Bool
  | .str s => s.data.take 11 == "[unresolved".data
  | _ => false

/-- Does `v` contain an unresolved sentinel at nesting depth exactly `j`,
counting the root of the materialized value as depth 0? -/
def hasUnresolvedAt : Nat → MValue → Bool
  | 0, v => isUnresolvedStr v
  | j + 1, .arr xs => xs.any fun x => hasUnresolvedAt j x
  | j + 1, .obj es => es.any fun e => hasUnresolvedAt j e.2
  | _ + 1, _ => false

/-- Modelled from the claim's words, for refutation only: a sanitization that
*strips* (removes) every character outside `[a-zA-Z0-9_-]` and truncates to
64 characters.  The source instead substitutes an underscore for each such
character. -/
def stripSan (s : String) : String :=
  ⟨(s.data.filter isWordChar).take 64⟩

/-- Protocol oracle with one composite (handle 1) whose children are named
`"0"`, `"1"`, `"2"`. -/
def fetchArr : Nat → List DapVariable :=
  fun r =>
    if r = 1 then
      [⟨"0", "10", none, 0⟩, ⟨"1", "20", none, 0⟩, ⟨"2", "30", none, 0⟩]
    else []

/-- Protocol oracle with one composite (handle 1) whose children are named
`"0"` and `"foo"`, plus an internal `[[Prototype]]` slot. -/
def fetchMap : Nat → List DapVariable :=
  fun r =>
    if r = 1 then
      [⟨"0", "10", none, 0⟩, ⟨"foo", "20", none, 0⟩,
        ⟨"[[Prototype]]", "Object", none, 0⟩]
    else []

/-- A capture environment in which every collaborator behaves and the fast
path succeeds with the value `42`. -/
def baseEnv : CaptureEnv :=
  { hasSession := true
    selection := some "x"
    threadsResp := some [1]
    stackResp := some [⟨7, "fn", none, none⟩]
    fastResult := some (MValue.num 42)
    evalResp := none
    fetch := fun _ => []
    numParse := np0
    cancelled := false
    maxDepth := 5
    nowIso := "2026-01-02T03:04:05.678Z" }

/-- `baseEnv` with an enclosing function whose name contains a character
outside the sanitizer's allowed class. -/
def envC9 : CaptureEnv :=
  { baseEnv with stackResp := some [⟨7, "a.b", none, none⟩] }

/-- The snapshot `captureVariable` produces under `baseEnv`. -/
def snapW : Snapshot :=
  { version := 1
    capturedAt := "2026-01-02T03:04:05.678Z"
    sourceFile := ""
    sourceLine := 0
    functionName := "fn"
    frameName := "fn"
    frameId := 7
    vars := [("x", MValue.num 42)] }

/-! ## Helper lemmas: one-step unfoldings of the Graph Walker -/

/-- Composite node, non-array-like children: the walker builds a mapping from
the children that are not internal slots. -/
theorem serializeVariable_obj (fetch : Nat → List DapVariable)
    (numParse : String → Option Rat) (v : DapVariable) (depth maxDepth : Nat)
    (h0 : v.varRef ≠ 0) (hd : depth < maxDepth)
    (harr : ¬(0 < (fetch v.varRef).length ∧
        ∀ c ∈ fetch v.varRef, isIndexName c.name = true)) :
    serializeVariable fetch numParse false v depth maxDepth =
      (MValue.obj (((fetch v.varRef).filter fun c => !isInternalSlot c.name).map
          fun c => (c.name,
            (serializeVariable fetch numParse false c (depth + 1) maxDepth).1)),
        v.varRef :: (((fetch v.varRef).filter fun c => !isInternalSlot c.name).map
          fun c =>
            (serializeVariable fetch numParse false c (depth + 1) maxDepth).2).flatten) := by
  rw [serializeVariable]
  rw [if_neg (by simp)]
  rw [dif_neg (by push_neg; exact ⟨h0, by omega⟩)]
  rw [if_neg (by simpa [List.length_pos, List.all_eq_true] using harr)]
  simp only [List.map_map]
  rfl

/-- Composite node, array-like children: the walker builds an ordered
sequence over all children in protocol order. -/
theorem serializeVariable_arr (fetch : Nat → List DapVariable)
    (numParse : String → Option Rat) (v : DapVariable) (depth maxDepth : Nat)
    (h0 : v.varRef ≠ 0) (hd : depth < maxDepth)
    (harr : 0 < (fetch v.varRef).length ∧
        ∀ c ∈ fetch v.varRef, isIndexName c.name = true) :
    serializeVariable fetch numParse false v depth maxDepth =
      (MValue.arr ((fetch v.varRef).map
          fun c => (serializeVariable fetch numParse false c (depth + 1) maxDepth).1),
        v.varRef :: ((fetch v.varRef).map
          fun c =>
            (serializeVariable fetch numParse false c (depth + 1) maxDepth).2).flatten) := by
  rw [serializeVariable]
  rw [if_neg (by simp)]
  rw [dif_neg (by push_neg; exact ⟨h0, by omega⟩)]
  rw [if_pos (by
    simp only [List.all_eq_true, decide_eq_true_eq, Bool.and_eq_true, gt_iff_lt,
      Nat.lt_iff_add_one_le, decide_eq_true_eq]
    refine ⟨by simpa using harr.1, harr.2⟩)]
  simp only [List.map_map]
  rfl

theorem chainVar_varRef (D r : Nat) (h : r < D) : (chainVar D r).varRef = r + 1 := by
  simp [chainVar, h]

theorem chainFetch_eq (D r : Nat) (h1 : 1 ≤ r) (h2 : r ≤ D) :
    chainFetch D r = [chainVar D r] := by
  simp [chainFetch, h1, h2]

/-- Walking the depth-`D` chain from node `r` with `m` levels of remaining
depth budget (and at least one more chain level than budget) produces `m`
nested singleton mappings around the unresolved sentinel, fetching exactly the
handles `r+1, ..., r+m`. -/
theorem chain_eval (D : Nat) (numParse : String → Option Rat) :
    ∀ m r d, r + m < D →
      serializeVariable (chainFetch D) numParse false (chainVar D r) d (d + m) =
        (chainNest m, refSeq (r + 1) m) := by
  intro m
  induction m with
  | zero =>
    intro r d h
    rw [serializeVariable]
    rw [if_neg (by simp)]
    rw [dif_pos (Or.inr (by omega))]
    rw [if_pos (by rw [chainVar_varRef D r (by omega)]; omega)]
    simp [chainVar, chainNest, refSeq]
  | succ m ih =>
    intro r d d_lt
    have hr : r < D := by omega
    have hfetch : chainFetch D ((chainVar D r).varRef) = [chainVar D (r + 1)] := by
      rw [chainVar_varRef D r hr]
      simp [chainFetch]
      omega
    rw [serializeVariable_obj (chainFetch D) numParse (chainVar D r) d (d + (m + 1))
      (by rw [chainVar_varRef D r hr]; omega) (by omega)
      (by
        rw [hfetch]
        intro hcon
        have := hcon.2 (chainVar D (r + 1)) (by simp)
        simp [chainVar, isIndexName] at this
        exact absurd this (by decide))]
    rw [hfetch]
    have hslot : isInternalSlot (chainVar D (r + 1)).name = false := by
      simp [chainVar, isInternalSlot]
    have hmd : d + (m + 1) = (d + 1) + m := by omega
    rw [hmd]
    rw [List.filter_cons]
    simp only [hslot, Bool.not_false, if_true, List.filter_nil, List.map_cons,
      List.map_nil, List.flatten]
    rw [ih (r + 1) (d + 1) (by omega)]
    have hname : (chainVar D (r + 1)).name = "c" := by simp [chainVar]
    rw [hname, chainVar_varRef D r hr]
    simp [chainNest, refSeq]

/-- In `chainNest M` the unresolved sentinel sits at nesting depth `M` and at
no other depth, counting the root of the materialized value as depth 0. -/
theorem chainNest_unresolved_iff :
    ∀ M j, hasUnresolvedAt j (chainNest M) = true ↔ j = M := by
  intro M
  induction M with
  | zero =>
    intro j
    cases j with
    | zero => simp [chainNest, hasUnresolvedAt, isUnresolvedStr]
    | succ j => simp [chainNest, hasUnresolvedAt]
  | succ M ih =>
    intro j
    cases j with
    | zero => simp [chainNest, hasUnresolvedAt, isUnresolvedStr]
    | succ j =>
      simp only [chainNest, hasUnresolvedAt, List.any_cons, List.any_nil,
        Bool.or_false]
      rw [ih j]
      omega

/-! ## Claim C1 -/

/-- Claim C1 (corrected): a remote variable reference with a non-zero
expandable handle reaching the walker with `depth ≥ maxDepth` (cancellation
not requested) yields exactly the string sentinel `[unresolved: <type>]`
(with `object` when no type tag is present) and issues no variables-fetch
protocol call for the node or any descendant; and for the synthetic reference
nested to depth `D` walked with `maxDepth = M < D`, the materialized value
carries the unresolved sentinel exactly at depth `M` *counted from 0 at the
originally-requested expression itself* (the root of the value) — not at its
immediate children as the claim states — with only the handles of the nodes
above it (depths `0..M-1`) fetched. -/
theorem c1_depth_bound_sentinel :
    (∀ (fetch : Nat → List DapVariable) (numParse : String → Option Rat)
        (v : DapVariable) (depth maxDepth : Nat),
      v.varRef ≠ 0 → maxDepth ≤ depth →
      serializeVariable fetch numParse false v depth maxDepth =
        (MValue.str ("[unresolved: " ++ v.type.getD "object" ++ "]"), [])) ∧
    (∀ (numParse : String → Option Rat) (D M : Nat), M < D →
      serializeVariable (chainFetch D) numParse false (chainVar D 0) 0 M =
        (chainNest M, refSeq 1 M)) ∧
    (∀ M j, hasUnresolvedAt j (chainNest M) = true ↔ j = M) := by
  refine ⟨?_, ?_, chainNest_unresolved_iff⟩
  · intro fetch numParse v depth maxDepth h1 h2
    rw [serializeVariable]
    rw [if_neg (by simp)]
    rw [dif_pos (Or.inr h2)]
    rw [if_pos h1]
  · intro numParse D M h
    simpa using chain_eval D numParse M 0 0 (by omega)

/-- Claim C1, witness: the sentinel rule at a concrete non-expandable depth
(`[unresolved: Map]`, no calls) and the chain property at `D = 2`, `M = 1`. -/
theorem c1_depth_bound_sentinel_witness :
    (3 : Nat) ≠ 0 ∧ (5 : Nat) ≤ 5 ∧ (1 : Nat) < 2 ∧
    serializeVariable (fun _ => []) np0 false ⟨"x", "Object", some "Map", 3⟩ 5 5 =
      (MValue.str "[unresolved: Map]", []) ∧
    serializeVariable (chainFetch 2) np0 false (chainVar 2 0) 0 1 =
      (chainNest 1, refSeq 1 1) :=
  ⟨by decide, by decide, by decide,
    c1_depth_bound_sentinel.1 (fun _ => []) np0
      ⟨"x", "Object", some "Map", 3⟩ 5 5 (by decide) (by decide),
    c1_depth_bound_sentinel.2.1 np0 2 1 (by decide)⟩

/-- Claim C1, counterexample to the claim as stated: for the chain nested to
depth `D = 2` walked with `maxDepth = M = 1`, the claim's counting ("depth 0
at the originally-requested expression's immediate children") places the
sentinel at the children of the root's children, i.e. at value-tree depth
`M + 1 = 2`; the actual result has the sentinel at value-tree depth 1 (the
immediate children themselves, child-counting depth 0) and nothing at depth
2. -/
theorem c1_depth_bound_sentinel_counterexample :
    serializeVariable (chainFetch 2) np0 false (chainVar 2 0) 0 1 =
      (chainNest 1, [1]) ∧
    hasUnresolvedAt 1 (chainNest 1) = true ∧
    hasUnresolvedAt 2 (chainNest 1) = false := by
  refine ⟨?_, by decide, by decide⟩
  have := chain_eval 2 np0 1 0 0 (by omega)
  simpa [refSeq] using this

/-! ## Claim C4 -/

/-- Claim C4: for every composite node the walker expands, if the fetched
child list is non-empty and every child name is a pure non-negative integer
string, the result is the ordered sequence of the recursively serialized
children in the protocol's returned order; otherwise it is a mapping built
from the children after removing those whose names begin with `[[`. -/
theorem c4_children_assembly :
    ∀ (fetch : Nat → List DapVariable) (numParse : String → Option Rat)
      (v : DapVariable) (depth maxDepth : Nat),
      v.varRef ≠ 0 → depth < maxDepth →
      ((0 < (fetch v.varRef).length ∧
          ∀ c ∈ fetch v.varRef, isIndexName c.name = true) →
        serializeVariable fetch numParse false v depth maxDepth =
          (MValue.arr ((fetch v.varRef).map
              fun c => (serializeVariable fetch numParse false c (depth + 1) maxDepth).1),
            v.varRef :: ((fetch v.varRef).map
              fun c => (serializeVariable fetch numParse false c (depth + 1) maxDepth).2).flatten)) ∧
      (¬(0 < (fetch v.varRef).length ∧
          ∀ c ∈ fetch v.varRef, isIndexName c.name = true) →
        serializeVariable fetch numParse false v depth maxDepth =
          (MValue.obj (((fetch v.varRef).filter fun c => !isInternalSlot c.name).map
              fun c => (c.name,
                (serializeVariable fetch numParse false c (depth + 1) maxDepth).1)),
            v.varRef :: (((fetch v.varRef).filter fun c => !isInternalSlot c.name).map
              fun c =>
                (serializeVariable fetch numParse false c (depth + 1) maxDepth).2).flatten)) :=
  fun fetch numParse v depth maxDepth h0 hd =>
    ⟨fun harr => serializeVariable_arr fetch numParse v depth maxDepth h0 hd harr,
     fun harr => serializeVariable_obj fetch numParse v depth maxDepth h0 hd harr⟩

/-- Claim C4, witness: children `"0", "1", "2"` produce a 3-element ordered
sequence; children `"0", "foo", "[[Prototype]]"` produce a mapping with the
internal slot removed. -/
theorem c4_children_assembly_witness :
    (1 : Nat) ≠ 0 ∧ (0 : Nat) < 5 ∧
    (0 < (fetchArr 1).length ∧ ∀ c ∈ fetchArr 1, isIndexName c.name = true) ∧
    serializeVariable fetchArr np0 false ⟨"xs", "Array", none, 1⟩ 0 5 =
      (MValue.arr ((fetchArr 1).map
          fun c => (serializeVariable fetchArr np0 false c 1 5).1),
        1 :: ((fetchArr 1).map
          fun c => (serializeVariable fetchArr np0 false c 1 5).2).flatten) ∧
    ¬(0 < (fetchMap 1).length ∧ ∀ c ∈ fetchMap 1, isIndexName c.name = true) ∧
    serializeVariable fetchMap np0 false ⟨"o", "Object", none, 1⟩ 0 5 =
      (MValue.obj (((fetchMap 1).filter fun c => !isInternalSlot c.name).map
          fun c => (c.name, (serializeVariable fetchMap np0 false c 1 5).1)),
        1 :: (((fetchMap 1).filter fun c => !isInternalSlot c.name).map
          fun c => (serializeVariable fetchMap np0 false c 1 5).2).flatten) := by
  refine ⟨by decide, by decide, by decide, ?_, by decide, ?_⟩
  · exact (c4_children_assembly fetchArr np0 ⟨"xs", "Array", none, 1⟩ 0 5
      (by decide) (by decide)).1 (by decide)
  · exact (c4_children_assembly fetchMap np0 ⟨"o", "Object", none, 1⟩ 0 5
      (by decide) (by decide)).2 (by decide)

/-! ## Helper lemmas: orchestrator control flow -/

/-- Every run of the orchestrator either aborts with no result and no file
written, or ends in the assembly step (`captureFinish`) with the trimmed
selection as expression and the top stack frame. -/
theorem captureVariable_shape (env : CaptureEnv) (root : String) :
    ((captureVariable env root).result = none ∧
      (captureVariable env root).writes = []) ∨
    (∃ expression topFrame serialized calls,
      expression = jsTrim (env.selection.getD "") ∧
      (some topFrame = (env.stackResp.getD []).head?) ∧
      captureVariable env root =
        captureFinish env root expression topFrame serialized calls) := by
  obtain ⟨hs, sel, th, st, fr, er, fe, npp, cc, md, now⟩ := env
  unfold captureVariable
  rcases hs with _ | _
  · left; exact ⟨rfl, rfl⟩
  · simp only [Bool.true_eq_false, not_true, if_false]
    split_ifs with h1 h2
    · left; exact ⟨rfl, rfl⟩
    · left; exact ⟨rfl, rfl⟩
    · rcases th with _ | ⟨_ | ⟨t0, ts⟩⟩
      · left; exact ⟨rfl, rfl⟩
      · left; exact ⟨rfl, rfl⟩
      · rcases st with _ | ⟨_ | ⟨f0, fs⟩⟩
        · left; exact ⟨rfl, rfl⟩
        · left; exact ⟨rfl, rfl⟩
        · rcases fr with _ | v
          · rcases er with _ | resp
            · left; exact ⟨rfl, rfl⟩
            · right
              refine ⟨_, f0, _, _, rfl, by simp, rfl⟩
          · right
            refine ⟨_, f0, _, _, rfl, by simp, rfl⟩

/-- The assembly step under a requested cancellation: nothing is returned,
nothing is written. -/
theorem captureFinish_cancelled (env : CaptureEnv) (root e : String)
    (f : DapStackFrame) (v : MValue) (calls : List DapCall)
    (h : env.cancelled = true) :
    captureFinish env root e f v calls =
      { result := none, calls := calls, writes := [], errors := [] } := by
  simp [captureFinish, h]

/-- The assembly step without cancellation: the snapshot record and the
suggested file path it returns and writes. -/
theorem captureFinish_done (env : CaptureEnv) (root e : String)
    (f : DapStackFrame) (v : MValue) (calls : List DapCall)
    (h : env.cancelled = false) :
    captureFinish env root e f v calls =
      { result := some (root ++ "/.snapshots/snapshots/" ++
            (sanitizeName f.name ++ "_" ++ sanitizeName e ++ "_" ++
              sanitizeTimestamp env.nowIso) ++ ".json",
          { version := 1
            capturedAt := env.nowIso
            sourceFile := f.sourcePath.getD ""
            sourceLine := f.line.getD 0
            functionName := f.name
            frameName := f.name
            frameId := f.id
            vars := [(e, v)] })
        calls := calls
        writes := [root ++ "/.snapshots/snapshots/" ++
            (sanitizeName f.name ++ "_" ++ sanitizeName e ++ "_" ++
              sanitizeTimestamp env.nowIso) ++ ".json"]
        errors := [] } := by
  simp [captureFinish, h]

/-! ## Claim C7 -/

/-- Claim C7: a recursive serialize call entered while cancellation is
requested returns the `[cancelled]` sentinel (issuing no protocol call and
raising no error), and an orchestrator run that observes the cancellation
returns nothing and writes no snapshot file. -/
theorem c7_cancellation :
    (∀ (fetch : Nat → List DapVariable) (numParse : String → Option Rat)
        (v : DapVariable) (depth maxDepth : Nat),
      serializeVariable fetch numParse true v depth maxDepth =
        (MValue.str "[cancelled]", [])) ∧
    (∀ (env : CaptureEnv) (workspaceRoot : String), env.cancelled = true →
      (captureVariable env workspaceRoot).result = none ∧
      (captureVariable env workspaceRoot).writes = []) := by
  constructor
  · intro fetch numParse v depth maxDepth
    rw [serializeVariable]
    simp
  · intro env workspaceRoot h
    rcases captureVariable_shape env workspaceRoot with hc | ⟨e, f, v, calls, _, _, heq⟩
    · exact hc
    · rw [heq, captureFinish_cancelled env workspaceRoot e f v calls h]
      exact ⟨rfl, rfl⟩

/-- Claim C7, witness: a concrete cancelled environment yields no result and
no written file. -/
theorem c7_cancellation_witness :
    ({ baseEnv with cancelled := true } : CaptureEnv).cancelled = true ∧
    (captureVariable { baseEnv with cancelled := true } "/ws").result = none ∧
    (captureVariable { baseEnv with cancelled := true } "/ws").writes = [] :=
  ⟨rfl, c7_cancellation.2 { baseEnv with cancelled := true } "/ws" rfl⟩

/-! ## Claim C9 -/

/-- Claim C9 (corrected): every successful capture's suggested path is
`<root>/.snapshots/snapshots/<san fn>_<san expr>_<san timestamp>.json`, where
the function-name and expression components *replace* each character outside
`[a-zA-Z0-9_-]` with an underscore (rather than stripping it, as the claim
states) and truncate to 64 characters, and the timestamp component is the ISO
timestamp with `:` and `.` replaced by `-` (not passed through the general
sanitizer).  Every sanitized component consists solely of allowed characters
and is bounded in length. -/
theorem c9_snapshot_file_name :
    (∀ (env : CaptureEnv) (workspaceRoot p : String) (snap : Snapshot),
      (captureVariable env workspaceRoot).result = some (p, snap) →
      ∃ expr v, snap.vars = [(expr, v)] ∧
        p = workspaceRoot ++ "/.snapshots/snapshots/" ++
          (sanitizeName snap.functionName ++ "_" ++ sanitizeName expr ++ "_" ++
            sanitizeTimestamp env.nowIso) ++ ".json") ∧
    (∀ s : String, (sanitizeName s).data.length ≤ 64 ∧
      ∀ c ∈ (sanitizeName s).data, isWordChar c = true) := by
  constructor
  · intro env workspaceRoot p snap hres
    rcases captureVariable_shape env workspaceRoot with hc | ⟨e, f, v, calls, _, _, heq⟩
    · rw [hc.1] at hres; exact absurd hres (by simp)
    · rw [heq] at hres
      rcases hcc : env.cancelled with _ | _
      · rw [captureFinish_done env workspaceRoot e f v calls hcc] at hres
        simp only [Option.some.injEq, Prod.mk.injEq] at hres
        obtain ⟨hp, hsnap⟩ := hres
        exact ⟨e, v, by rw [← hsnap], by rw [← hp, ← hsnap]⟩
      · rw [captureFinish_cancelled env workspaceRoot e f v calls hcc] at hres
        exact absurd hres (by simp)
  · intro s
    refine ⟨List.length_take_le 64 _, ?_⟩
    intro c hc
    have hc' := List.take_subset 64 _ hc
    obtain ⟨x, _, hx⟩ := List.mem_map.mp hc'
    by_cases hw : isWordChar x = true
    · rw [← hx]; simp [hw]
    · rw [← hx]; simp [hw]; decide

/-- Claim C9, witness: a concrete successful capture and its suggested file
name form. -/
theorem c9_snapshot_file_name_witness :
    (captureVariable baseEnv "/ws").result =
      some ("/ws/.snapshots/snapshots/fn_x_2026-01-02T03-04-05-678Z.json", snapW) ∧
    (∃ expr v, snapW.vars = [(expr, v)] ∧
      "/ws/.snapshots/snapshots/fn_x_2026-01-02T03-04-05-678Z.json" =
        "/ws" ++ "/.snapshots/snapshots/" ++
          (sanitizeName snapW.functionName ++ "_" ++ sanitizeName expr ++ "_" ++
            sanitizeTimestamp baseEnv.nowIso) ++ ".json") :=
  ⟨by rfl,
    c9_snapshot_file_name.1 baseEnv "/ws"
      "/ws/.snapshots/snapshots/fn_x_2026-01-02T03-04-05-678Z.json"
      snapW (by rfl)⟩

/-- Claim C9, counterexample to the claim as stated: for the enclosing
function name `a.b` the code *replaces* the dot with an underscore, producing
`a_b` in the suggested name; a sanitization that *strips* the disallowed
character, as the claim describes, would produce `ab`, and the resulting
names differ. -/
theorem c9_snapshot_file_name_counterexample :
    (captureVariable envC9 "/ws").result.map Prod.fst =
      some "/ws/.snapshots/snapshots/a_b_x_2026-01-02T03-04-05-678Z.json" ∧
    sanitizeName "a.b" = "a_b" ∧
    stripSan "a.b" = "ab" ∧
    "/ws/.snapshots/snapshots/a_b_x_2026-01-02T03-04-05-678Z.json" ≠
      "/ws" ++ "/.snapshots/snapshots/" ++
        (stripSan "a.b" ++ "_" ++ stripSan "x" ++ "_" ++
          stripSan "2026-01-02T03:04:05.678Z") ++ ".json" :=
  ⟨by decide, by decide, by decide, by decide⟩

/-! ## Claim C8 -/

/-- Claim C8: a capture invocation whose trimmed selection is empty, starts
with `[` or `{`, or spans multiple lines is rejected immediately — no result,
no debug-protocol call, no file written, and exactly one user-facing error
message. -/
theorem c8_validation :
    ∀ (env : CaptureEnv) (workspaceRoot : String),
      env.hasSession = true →
      (jsTrim (env.selection.getD "") = "" ∨
        opensLiteral (jsTrim (env.selection.getD "")) = true ∨
        containsNewline (jsTrim (env.selection.getD "")) = true) →
      (captureVariable env workspaceRoot).result = none ∧
      (captureVariable env workspaceRoot).calls = [] ∧
      (captureVariable env workspaceRoot).writes = [] ∧
      (captureVariable env workspaceRoot).errors.length = 1 := by
  intro env workspaceRoot hs hbad
  unfold captureVariable
  rw [if_neg (by simp [hs])]
  by_cases he : jsTrim (env.selection.getD "") = ""
  · rw [if_pos he]
    exact ⟨rfl, rfl, rfl, rfl⟩
  · rw [if_neg he]
    have hor : (opensLiteral (jsTrim (env.selection.getD "")) ||
        containsNewline (jsTrim (env.selection.getD ""))) = true := by
      rcases hbad with h | h | h
      · exact absurd h he
      · simp [h]
      · simp [h]
    rw [if_pos hor]
    exact ⟨rfl, rfl, rfl, rfl⟩

/-- Claim C8, witness: selecting the array literal `[1, 2]` is rejected with
one error message, no protocol call and no write. -/
theorem c8_validation_witness :
    (({ baseEnv with selection := some "  [1, 2] " } : CaptureEnv).hasSession = true) ∧
    opensLiteral (jsTrim (({ baseEnv with selection := some "  [1, 2] " } : CaptureEnv).selection.getD "")) = true ∧
    (captureVariable { baseEnv with selection := some "  [1, 2] " } "/ws").result = none ∧
    (captureVariable { baseEnv with selection := some "  [1, 2] " } "/ws").calls = [] ∧
    (captureVariable { baseEnv with selection := some "  [1, 2] " } "/ws").writes = [] ∧
    (captureVariable { baseEnv with selection := some "  [1, 2] " } "/ws").errors.length = 1 := by
  refine ⟨by decide, by decide, ?_⟩
  exact c8_validation { baseEnv with selection := some "  [1, 2] " } "/ws"
    (by decide) (Or.inr (Or.inl (by decide)))

/-! ## Claim C5 -/

/-- Claim C5 (corrected): the decoder applies its rules in order — the four
literals, then the numeric rule (type tag `number`, or no type tag and the
signed-integer-or-decimal pattern) returning the parsed number, and, when the
numeric parse yields not-a-number, falling back to the *remaining string
rules* (quote unwrapping first, then the raw text) rather than directly to
the raw string as the claim states; unquoted text decodes verbatim.  The
model is a total function, so no case can raise. -/
theorem c5_decoder_rules :
    ∀ (numParse : String → Option Rat) (raw : String) (type : Option String),
      (raw = "undefined" → parsePrimitiveValue numParse raw type = MValue.undef) ∧
      (raw = "null" → parsePrimitiveValue numParse raw type = MValue.null) ∧
      (raw = "true" → parsePrimitiveValue numParse raw type = MValue.bool true) ∧
      (raw = "false" → parsePrimitiveValue numParse raw type = MValue.bool false) ∧
      (raw ≠ "undefined" → raw ≠ "null" → raw ≠ "true" → raw ≠ "false" →
        ((type = some "number" ∨ (type = none ∧ numericLike raw = true)) →
          (∀ q, numParse raw = some q →
            parsePrimitiveValue numParse raw type = MValue.num q) ∧
          (numParse raw = none →
            parsePrimitiveValue numParse raw type = stringFallback raw)) ∧
        (¬(type = some "number" ∨ (type = none ∧ numericLike raw = true)) →
          parsePrimitiveValue numParse raw type = stringFallback raw)) ∧
      (raw.data.head? = some '"' ∧ raw.data.getLast? = some '"' →
        stringFallback raw = MValue.str (sliceInner raw)) ∧
      (¬(raw.data.head? = some '"' ∧ raw.data.getLast? = some '"') →
        raw.data.head? = some '\'' ∧ raw.data.getLast? = some '\'' →
        stringFallback raw = MValue.str (sliceInner raw)) ∧
      (¬(raw.data.head? = some '"' ∧ raw.data.getLast? = some '"') →
        ¬(raw.data.head? = some '\'' ∧ raw.data.getLast? = some '\'') →
        stringFallback raw = MValue.str raw) := by
  intro numParse raw type
  refine ⟨?_, ?_, ?_, ?_, ?_, ?_, ?_, ?_⟩
  · intro h; subst h; rfl
  · intro h; subst h; rfl
  · intro h; subst h; rfl
  · intro h; subst h; rfl
  · intro h1 h2 h3 h4
    constructor
    · intro hnum
      constructor
      · intro q hq
        unfold parsePrimitiveValue
        rw [if_neg h1, if_neg h2, if_neg h3, if_neg h4, if_pos hnum, hq]
      · intro hq
        unfold parsePrimitiveValue
        rw [if_neg h1, if_neg h2, if_neg h3, if_neg h4, if_pos hnum, hq]
    · intro hnum
      unfold parsePrimitiveValue
      rw [if_neg h1, if_neg h2, if_neg h3, if_neg h4, if_neg hnum]
  · intro h; unfold stringFallback; rw [if_pos h]
  · intro h1 h2; unfold stringFallback; rw [if_neg h1, if_pos h2]
  · intro h1 h2; unfold stringFallback; rw [if_neg h1, if_neg h2]

/-- Claim C5, witness: the four literals, a numeric parse (`"42"` with a
`number` tag), the plain-text fall-through, and a quote unwrap. -/
theorem c5_decoder_rules_witness :
    parsePrimitiveValue np0 "undefined" none = MValue.undef ∧
    parsePrimitiveValue np0 "null" none = MValue.null ∧
    parsePrimitiveValue np0 "true" none = MValue.bool true ∧
    parsePrimitiveValue np0 "false" none = MValue.bool false ∧
    npW "42" = some 42 ∧
    parsePrimitiveValue npW "42" (some "number") = MValue.num 42 ∧
    np0 "foo" = none ∧
    parsePrimitiveValue np0 "foo" none = stringFallback "foo" ∧
    stringFallback "'hi'" = MValue.str "hi" :=
  ⟨(c5_decoder_rules np0 "undefined" none).1 rfl,
    (c5_decoder_rules np0 "null" none).2.1 rfl,
    (c5_decoder_rules np0 "true" none).2.2.1 rfl,
    (c5_decoder_rules np0 "false" none).2.2.2.1 rfl,
    by decide,
    (((c5_decoder_rules npW "42" (some "number")).2.2.2.2.1 (by decide) (by decide)
        (by decide) (by decide)).1 (Or.inl rfl)).1 42 (by decide),
    rfl,
    ((c5_decoder_rules np0 "foo" none).2.2.2.2.1 (by decide) (by decide)
        (by decide) (by decide)).2 (by
          intro hcon
          rcases hcon with h | ⟨_, h⟩
          · exact absurd h (by decide)
          · exact absurd h (by decide)),
    by
      have := (c5_decoder_rules np0 "'hi'" none).2.2.2.2.2.2.1
        (by decide) (by decide)
      simpa using this⟩

/-- Claim C5, counterexample to the claim as stated: with a `number` type tag
and the quoted text `'abc'` the JS parse is `NaN` (`np0` models this), and
the decoder returns the *unwrapped* text `abc`, not the raw string `'abc'`
the claim's fallback describes. -/
theorem c5_decoder_rules_counterexample :
    np0 "'abc'" = none ∧
    parsePrimitiveValue np0 "'abc'" (some "number") = MValue.str "abc" ∧
    ("abc" : String) ≠ "'abc'" :=
  ⟨rfl, by rfl, by decide⟩

/-! ## Claim C6 -/

/-- Claim C6: every failure in the fast path (rejected evaluation, a response
not reporting success, a missing artifact, malformed artifact content) makes
`fastSerialize` return the unavailable result (`none`) as a normal value —
no exception escapes in any environment — and the temporary-artifact removal
is attempted on every path, with a removal failure swallowed rather than
escalated. -/
theorem c6_fast_path_error_handling :
    ∀ env : FastEnv,
      (∃ o, fastSerialize env = (Except.ok o, true)) ∧
      ((∃ e, env.evalResp = Except.error e) →
        fastSerialize env = (Except.ok none, true)) ∧
      (∀ r, env.evalResp = Except.ok r → includesOk r = false →
        fastSerialize env = (Except.ok none, true)) ∧
      (∀ r, env.evalResp = Except.ok r → includesOk r = true →
        (∃ e, env.readFile = Except.error e) →
        fastSerialize env = (Except.ok none, true)) ∧
      (∀ r json, env.evalResp = Except.ok r → includesOk r = true →
        env.readFile = Except.ok json →
        (∃ e, env.jsonParse json = Except.error e) →
        fastSerialize env = (Except.ok none, true)) := by
  intro env
  obtain ⟨ev, rf, jp, ul⟩ := env
  refine ⟨?_, ?_, ?_, ?_, ?_⟩
  · rcases ev with e | r
    · exact ⟨none, by cases ul <;> simp [fastSerialize, fastBody, jsCatch, Bind.bind, Except.bind, Except.map, Functor.map, pure, Except.pure]⟩
    · by_cases hok : includesOk r = true
      · rcases rf with e | json
        · exact ⟨none, by cases ul <;> simp [fastSerialize, fastBody, jsCatch, Bind.bind, Except.bind, Except.map, Functor.map, pure, Except.pure, hok]⟩
        · rcases hj : jp json with e | v
          · exact ⟨none, by cases ul <;>
              simp [fastSerialize, fastBody, jsCatch, Bind.bind, Except.bind, Except.map, Functor.map, pure, Except.pure, hok, hj]⟩
          · exact ⟨some v, by cases ul <;>
              simp [fastSerialize, fastBody, jsCatch, Bind.bind, Except.bind, Except.map, Functor.map, pure, Except.pure, hok, hj]⟩
      · exact ⟨none, by cases ul <;>
          simp [fastSerialize, fastBody, jsCatch, Bind.bind, Except.bind, Except.map, Functor.map, pure, Except.pure, hok]⟩
  · rintro ⟨e, he⟩
    subst he
    cases ul <;> simp [fastSerialize, fastBody, jsCatch, Bind.bind, Except.bind, Except.map, Functor.map, pure, Except.pure]
  · intro r hev hok
    subst hev
    cases ul <;> simp [fastSerialize, fastBody, jsCatch, Bind.bind, Except.bind, Except.map, Functor.map, pure, Except.pure, hok]
  · rintro r hev hok ⟨e, he⟩
    subst hev; subst he
    cases ul <;> simp [fastSerialize, fastBody, jsCatch, Bind.bind, Except.bind, Except.map, Functor.map, pure, Except.pure, hok]
  · rintro r json hev hok hrf ⟨e, he⟩
    subst hev; subst hrf
    have he' : jp json = Except.error e := he
    cases ul <;> simp [fastSerialize, fastBody, jsCatch, Bind.bind, Except.bind, Except.map, Functor.map, pure, Except.pure, hok, he']

/-- Claim C6, witness: a rejected evaluation combined with a failing unlink
still yields the swallowed unavailable result. -/
theorem c6_fast_path_error_handling_witness :
    (∃ e, (FastEnv.mk (Except.error "evaluate failed") (Except.ok "")
        (fun _ => Except.error "parse") (Except.error "unlink failed")).evalResp =
          Except.error e) ∧
    fastSerialize (FastEnv.mk (Except.error "evaluate failed") (Except.ok "")
        (fun _ => Except.error "parse") (Except.error "unlink failed")) =
      (Except.ok none, true) :=
  ⟨⟨"evaluate failed", rfl⟩,
    (c6_fast_path_error_handling (FastEnv.mk (Except.error "evaluate failed")
        (Except.ok "") (fun _ => Except.error "parse")
        (Except.error "unlink failed"))).2.1 ⟨"evaluate failed", rfl⟩⟩

/-! ## Helper lemmas: the Bounded Concurrency Gate -/

/-- One gate event preserves the admission bound, provided a completion only
happens while some task is active. -/
theorem Semaphore.step_active_le (limit : Nat) (s : Semaphore) (e : SemEvent)
    (hle : s.active ≤ limit) (hv : e = SemEvent.complete → 0 < s.active) :
    (Semaphore.step limit s e).active ≤ limit := by
  cases e with
  | arrive id =>
    simp only [Semaphore.step, Semaphore.acquire]
    split_ifs with h
    · simpa using h
    · simpa using hle
  | complete =>
    have hpos := hv rfl
    simp only [Semaphore.step, Semaphore.release]
    rcases s.queue with _ | ⟨next, rest⟩
    · simp; omega
    · simp; omega

/-- Along any valid event sequence, every reached state respects the
admission bound. -/
theorem Semaphore.exec_active_le (limit : Nat) :
    ∀ (events : List SemEvent) (s : Semaphore), s.active ≤ limit →
      Semaphore.validFrom limit s events = true →
      ∀ s' ∈ Semaphore.exec limit s events, s'.active ≤ limit := by
  intro events
  induction events with
  | nil => intro s _ _ s' hmem; simp [Semaphore.exec] at hmem
  | cons e es ih =>
    intro s hle hv s' hmem
    simp only [Semaphore.validFrom, Bool.and_eq_true] at hv
    have hguard : e = SemEvent.complete → 0 < s.active := by
      intro he
      subst he
      simpa using hv.1
    have hstep := Semaphore.step_active_le limit s e hle hguard
    simp only [Semaphore.exec, List.mem_cons] at hmem
    rcases hmem with rfl | hmem
    · exact hstep
    · exact ih (Semaphore.step limit s e) hstep hv.2 s' hmem

/-! ## Claim C2 -/

/-- Claim C2: for every sequence of gate events (covering any number of
concurrent `run` calls, in particular N+K of them) in which each release is
triggered by an admitted task's completion, the number of active tasks never
exceeds the limit at any point; a release hands the freed slot to exactly the
oldest queued waiter (the queue head) leaving the active count unchanged, and
an arrival over the limit is appended at the back of the FIFO queue. -/
theorem c2_gate_invariant :
    (∀ (limit : Nat) (events : List SemEvent) (s' : Semaphore),
      Semaphore.validFrom limit Semaphore.init events = true →
      s' ∈ Semaphore.exec limit Semaphore.init events →
      s'.active ≤ limit) ∧
    (∀ (s : Semaphore) (next : Nat) (rest : List Nat),
      0 < s.active → s.queue = next :: rest →
      Semaphore.release s = ({ active := s.active, queue := rest }, some next)) ∧
    (∀ (limit : Nat) (s : Semaphore) (id : Nat), ¬ s.active < limit →
      Semaphore.acquire limit s id =
        ({ s with queue := s.queue ++ [id] }, false)) := by
  refine ⟨?_, ?_, ?_⟩
  · intro limit events s' hv hmem
    exact Semaphore.exec_active_le limit events Semaphore.init (by simp [Semaphore.init]) hv s' hmem
  · intro s next rest hpos hq
    simp only [Semaphore.release, hq]
    congr 1
    simp
    omega
  · intro limit s id h
    simp [Semaphore.acquire, h]

/-- Claim C2, witness: limit 1 with three `run` calls — the second arrival
queues, the completion admits exactly it, and the bound holds throughout. -/
theorem c2_gate_invariant_witness :
    Semaphore.validFrom 1 Semaphore.init
      [SemEvent.arrive 10, SemEvent.arrive 11, SemEvent.complete] = true ∧
    (⟨1, [11]⟩ : Semaphore) ∈ Semaphore.exec 1 Semaphore.init
      [SemEvent.arrive 10, SemEvent.arrive 11, SemEvent.complete] ∧
    (⟨1, [11]⟩ : Semaphore).active ≤ 1 ∧
    (0 : Nat) < 1 ∧
    Semaphore.release ⟨1, [11]⟩ = ({ active := 1, queue := [] }, some 11) ∧
    ¬ (1 : Nat) < 1 ∧
    Semaphore.acquire 1 ⟨1, []⟩ 11 = (⟨1, [11]⟩, false) :=
  ⟨by decide, by decide, by decide, by decide,
    c2_gate_invariant.2.1 ⟨1, [11]⟩ 11 [] (by decide) rfl,
    by decide,
    c2_gate_invariant.2.2 1 ⟨1, []⟩ 11 (by decide)⟩

/-! ## Helper lemmas: the Progress Counter -/

theorem chainLe_cons (a : Int) (l : List Int) :
    chainLe (a :: l) = true ↔
      (∀ b, l.head? = some b → a ≤ b) ∧ chainLe l = true := by
  cases l with
  | nil => simp [chainLe]
  | cons b t => simp [chainLe, and_comm]

theorem chainNe_cons (a : Int) (l : List Int) :
    chainNe (a :: l) = true ↔
      (∀ b, l.head? = some b → a ≠ b) ∧ chainNe l = true := by
  cases l with
  | nil => simp [chainNe]
  | cons b t => simp [chainNe, and_comm]

theorem SerializeCounter.pctNow_nonneg (s : SerializeCounter) : 0 ≤ s.pctNow := by
  simp only [SerializeCounter.pctNow]
  positivity

theorem SerializeCounter.pctNow_le (s : SerializeCounter) : s.pctNow ≤ 99 := by
  simp [SerializeCounter.pctNow]

theorem SerializeCounter.report_silent (s t : SerializeCounter)
    (h : SerializeCounter.report s = (t, none)) : t = s := by
  unfold SerializeCounter.report at h
  split at h
  · simp_all
  · by_cases hp : s.pctNow = s.lastPct
    · simp_all
    · simp [hp] at h

theorem SerializeCounter.report_emit (s t : SerializeCounter) (x : Int)
    (h : SerializeCounter.report s = (t, some x)) :
    x = s.pctNow ∧ t.lastPct = x ∧ x ≠ s.lastPct ∧
      t.total = s.total ∧ t.completed = s.completed := by
  unfold SerializeCounter.report at h
  split at h
  · simp_all
  · by_cases hp : s.pctNow = s.lastPct
    · simp [hp] at h
    · simp [hp] at h
      obtain ⟨ht, hx⟩ := h
      subst hx
      rw [← ht]
      exact ⟨rfl, rfl, hp, rfl, rfl⟩

theorem SerializeCounter.step_silent (s t : SerializeCounter) (op : CounterOp)
    (h : SerializeCounter.step s op = (t, none)) : t.lastPct = s.lastPct := by
  cases op with
  | addItems n =>
    have := SerializeCounter.report_silent _ _ h
    rw [this]
  | completeItem =>
    have := SerializeCounter.report_silent _ _ h
    rw [this]

theorem SerializeCounter.step_emit (s t : SerializeCounter) (op : CounterOp) (x : Int)
    (h : SerializeCounter.step s op = (t, some x)) :
    t.lastPct = x ∧ x ≠ s.lastPct ∧ 0 ≤ x ∧ x ≤ 99 := by
  cases op with
  | addItems n =>
    obtain ⟨hx, hl, hne, _, _⟩ := SerializeCounter.report_emit _ _ _ h
    exact ⟨hl, by simpa [hx] using hne, hx ▸ SerializeCounter.pctNow_nonneg _,
      hx ▸ SerializeCounter.pctNow_le _⟩
  | completeItem =>
    obtain ⟨hx, hl, hne, _, _⟩ := SerializeCounter.report_emit _ _ _ h
    exact ⟨hl, by simpa [hx] using hne, hx ▸ SerializeCounter.pctNow_nonneg _,
      hx ▸ SerializeCounter.pctNow_le _⟩

theorem SerializeCounter.run_bounds :
    ∀ (ops : List CounterOp) (s : SerializeCounter),
      ∀ e ∈ (SerializeCounter.run s ops).2, 0 ≤ e ∧ e ≤ 99 := by
  intro ops
  induction ops with
  | nil => intro s e he; simp [SerializeCounter.run] at he
  | cons op ops ih =>
    intro s e he
    simp only [SerializeCounter.run] at he
    rcases hstep : SerializeCounter.step s op with ⟨t, o⟩
    rw [hstep] at he
    rcases o with _ | x
    · simp at he
      exact ih t e he
    · simp [List.mem_cons] at he
      rcases he with rfl | he
      · obtain ⟨_, _, h0, h99⟩ := SerializeCounter.step_emit s t op e hstep
        exact ⟨h0, h99⟩
      · exact ih t e he

theorem SerializeCounter.run_chainNe :
    ∀ (ops : List CounterOp) (s : SerializeCounter),
      chainNe ((SerializeCounter.run s ops).2) = true ∧
      (∀ x, ((SerializeCounter.run s ops).2).head? = some x → x ≠ s.lastPct) := by
  intro ops
  induction ops with
  | nil => intro s; simp [SerializeCounter.run, chainNe]
  | cons op ops ih =>
    intro s
    simp only [SerializeCounter.run]
    rcases hstep : SerializeCounter.step s op with ⟨t, o⟩
    rcases o with _ | x
    · simp only [Option.toList, List.nil_append]
      have hl := SerializeCounter.step_silent s t op hstep
      refine ⟨(ih t).1, ?_⟩
      intro x hx
      have := (ih t).2 x hx
      rw [hl] at this
      exact this
    · simp only [Option.toList, List.singleton_append]
      obtain ⟨hlast, hne, _, _⟩ := SerializeCounter.step_emit s t op x hstep
      constructor
      · rw [chainNe_cons]
        refine ⟨?_, (ih t).1⟩
        intro b hb
        have := (ih t).2 b hb
        rw [hlast] at this
        exact fun hxb => this hxb.symm |>.elim
      · intro y hy
        simp at hy
        subst hy
        exact hne

theorem SerializeCounter.pctNow_zero (s : SerializeCounter)
    (h : s.completed = 0) : s.pctNow = 0 := by
  simp [SerializeCounter.pctNow, h]

theorem SerializeCounter.pctNow_mono (s : SerializeCounter) :
    s.pctNow ≤ SerializeCounter.pctNow
      { s with completed := s.completed + 1 } := by
  unfold SerializeCounter.pctNow
  refine min_le_min (le_refl _) ?_
  exact Int.ofNat_le.mpr
    (Nat.div_le_div_right (Nat.mul_le_mul_right 100 (Nat.le_succ _)))

theorem SerializeCounter.run_adds :
    ∀ (ops : List CounterOp), (∀ op ∈ ops, ∃ n, op = CounterOp.addItems n) →
      ∀ s : SerializeCounter, s.completed = 0 → s.lastPct ≤ 0 →
      (∀ e ∈ (SerializeCounter.run s ops).2, e = 0) ∧
      (SerializeCounter.run s ops).1.completed = 0 ∧
      (SerializeCounter.run s ops).1.lastPct ≤ 0 := by
  intro ops
  induction ops with
  | nil => intro _ s hc hl; exact ⟨by simp [SerializeCounter.run], hc, hl⟩
  | cons op ops ih =>
    intro hall s hc hl
    obtain ⟨n, hop⟩ := hall op (by simp)
    subst hop
    simp only [SerializeCounter.run]
    rcases hrep : SerializeCounter.report { s with total := s.total + n }
      with ⟨t, o⟩
    have hstep : SerializeCounter.step s (CounterOp.addItems n) = (t, o) := by
      simp [SerializeCounter.step, hrep]
    rw [hstep]
    have hpct0 : SerializeCounter.pctNow { s with total := s.total + n } = 0 :=
      SerializeCounter.pctNow_zero _ hc
    have hrest := fun ht hlt => ih (fun op hm => hall op (by simp [hm])) t ht hlt
    rcases o with _ | x
    · have ht := SerializeCounter.report_silent _ _ hrep
      have h1 : t.completed = 0 := by rw [ht]; exact hc
      have h2 : t.lastPct ≤ 0 := by rw [ht]; exact hl
      obtain ⟨he, hc', hl'⟩ := hrest h1 h2
      exact ⟨by simpa using he, hc', hl'⟩
    · obtain ⟨hx, hlast, hne, htot, hcomp⟩ := SerializeCounter.report_emit _ _ _ hrep
      have hx0 : x = 0 := by rw [hx, hpct0]
      have h1 : t.completed = 0 := by rw [hcomp]; exact hc
      have h2 : t.lastPct ≤ 0 := by rw [hlast, hx0]
      obtain ⟨he, hc', hl'⟩ := hrest h1 h2
      refine ⟨?_, hc', hl'⟩
      intro e hme
      simp only [Option.toList, List.singleton_append, List.mem_cons] at hme
      rcases hme with rfl | hme
      · exact hx0
      · exact he e hme

theorem SerializeCounter.run_completes :
    ∀ (ops : List CounterOp), (∀ op ∈ ops, op = CounterOp.completeItem) →
      ∀ s : SerializeCounter, s.lastPct ≤ s.pctNow →
      chainLe ((SerializeCounter.run s ops).2) = true ∧
      (∀ x, ((SerializeCounter.run s ops).2).head? = some x → s.lastPct ≤ x) := by
  intro ops
  induction ops with
  | nil => intro _ s _; simp [SerializeCounter.run, chainLe]
  | cons op ops ih =>
    intro hall s hinv
    have hop := hall op (by simp)
    subst hop
    simp only [SerializeCounter.run]
    rcases hrep : SerializeCounter.report { s with completed := s.completed + 1 }
      with ⟨t, o⟩
    have hstep : SerializeCounter.step s CounterOp.completeItem = (t, o) := by
      simp [SerializeCounter.step, hrep]
    rw [hstep]
    have hmono : s.pctNow ≤
        SerializeCounter.pctNow { s with completed := s.completed + 1 } :=
      SerializeCounter.pctNow_mono s
    have hrest := fun hi => ih (fun op hm => hall op (by simp [hm])) t hi
    rcases o with _ | x
    · have ht := SerializeCounter.report_silent _ _ hrep
      have hi : t.lastPct ≤ t.pctNow := by
        rw [ht]
        exact le_trans hinv hmono
      obtain ⟨hch, hhd⟩ := hrest hi
      refine ⟨by simpa using hch, ?_⟩
      intro x hx
      simp only [Option.toList, List.nil_append] at hx
      have := hhd x hx
      rw [ht] at this
      exact this
    · obtain ⟨hx, hlast, hne, htot, hcomp⟩ := SerializeCounter.report_emit _ _ _ hrep
      have hpct_t : t.pctNow = SerializeCounter.pctNow
          { s with completed := s.completed + 1 } := by
        unfold SerializeCounter.pctNow
        rw [htot, hcomp]
      have hi : t.lastPct ≤ t.pctNow := by
        rw [hlast, hx, hpct_t]
      obtain ⟨hch, hhd⟩ := hrest hi
      have hsx : s.lastPct ≤ x := by
        rw [hx]
        exact le_trans hinv hmono
      constructor
      · simp only [Option.toList, List.singleton_append]
        rw [chainLe_cons]
        refine ⟨?_, hch⟩
        intro b hb
        have := hhd b hb
        rw [hlast] at this
        exact this
      · intro y hy
        simp only [Option.toList, List.singleton_append, List.head?_cons,
          Option.some.injEq] at hy
        subst hy
        exact hsx

theorem chainLe_zeros_append :
    ∀ (l1 l2 : List Int), (∀ a ∈ l1, a = 0) → (∀ b ∈ l2, 0 ≤ b) →
      chainLe l2 = true → chainLe (l1 ++ l2) = true := by
  intro l1
  induction l1 with
  | nil => intro l2 _ _ h; simpa using h
  | cons a l1 ih =>
    intro l2 h0 hnn hch
    have ha : a = 0 := h0 a (by simp)
    simp only [List.cons_append]
    rw [chainLe_cons]
    refine ⟨?_, ih l2 (fun b hb => h0 b (by simp [hb])) hnn hch⟩
    intro b hb
    subst ha
    rcases l1 with _ | ⟨c, l1⟩
    · simp only [List.nil_append] at hb
      exact hnn b (List.mem_of_mem_head? hb)
    · simp only [List.cons_append, List.head?_cons, Option.some.injEq] at hb
      rw [← hb]
      exact le_of_eq (h0 c (by simp)).symm

theorem SerializeCounter.run_append :
    ∀ (l1 l2 : List CounterOp) (s : SerializeCounter),
      SerializeCounter.run s (l1 ++ l2) =
        ((SerializeCounter.run (SerializeCounter.run s l1).1 l2).1,
          (SerializeCounter.run s l1).2 ++
            (SerializeCounter.run (SerializeCounter.run s l1).1 l2).2) := by
  intro l1
  induction l1 with
  | nil => intro l2 s; simp [SerializeCounter.run]
  | cons op l1 ih =>
    intro l2 s
    simp only [List.cons_append, SerializeCounter.run, List.append_eq]
    rw [ih l2 (SerializeCounter.step s op).1]
    simp [List.append_assoc]

/-! ## Claim C3 -/

/-- Claim C3 (corrected): every emitted percentage lies in `[0, 99]` (100 is
never reached before the caller's final completion signal) and no two
consecutive emissions are equal; the emission sequence is non-decreasing for
call sequences in which every `addItems` precedes every `completeItem`, but
not in general — an `addItems` after a completion can lower the percentage
(see the counterexample). -/
theorem c3_progress_counter :
    (∀ (ops : List CounterOp) (e : Int), e ∈ counterEmissions ops →
      0 ≤ e ∧ e ≤ 99) ∧
    (∀ ops : List CounterOp, chainNe (counterEmissions ops) = true) ∧
    (∀ l1 l2 : List CounterOp,
      (∀ op ∈ l1, ∃ n, op = CounterOp.addItems n) →
      (∀ op ∈ l2, op = CounterOp.completeItem) →
      chainLe (counterEmissions (l1 ++ l2)) = true) := by
  refine ⟨?_, ?_, ?_⟩
  · intro ops e he
    exact SerializeCounter.run_bounds ops SerializeCounter.init e he
  · intro ops
    exact (SerializeCounter.run_chainNe ops SerializeCounter.init).1
  · intro l1 l2 hadds hcompletes
    unfold counterEmissions
    rw [SerializeCounter.run_append]
    obtain ⟨hz, hc0, hl0⟩ := SerializeCounter.run_adds l1 hadds
      SerializeCounter.init rfl (by simp [SerializeCounter.init])
    have hinv : (SerializeCounter.run SerializeCounter.init l1).1.lastPct ≤
        (SerializeCounter.run SerializeCounter.init l1).1.pctNow := by
      rw [SerializeCounter.pctNow_zero _ hc0]
      exact hl0
    obtain ⟨hch, _⟩ := SerializeCounter.run_completes l2 hcompletes
      (SerializeCounter.run SerializeCounter.init l1).1 hinv
    exact chainLe_zeros_append _ _ hz
      (fun b hb => (SerializeCounter.run_bounds l2 _ b hb).1) hch

/-- Claim C3, witness: `addItems 2` then two completions emit `[0, 50, 99]` —
bounded, adjacent-distinct, and non-decreasing. -/
theorem c3_progress_counter_witness :
    counterEmissions [CounterOp.addItems 2, CounterOp.completeItem,
      CounterOp.completeItem] = [0, 50, 99] ∧
    ((50 : Int) ∈ counterEmissions [CounterOp.addItems 2, CounterOp.completeItem,
      CounterOp.completeItem] ∧ 0 ≤ (50 : Int) ∧ (50 : Int) ≤ 99) ∧
    chainNe (counterEmissions [CounterOp.addItems 2, CounterOp.completeItem,
      CounterOp.completeItem]) = true ∧
    chainLe (counterEmissions ([CounterOp.addItems 2] ++
      [CounterOp.completeItem, CounterOp.completeItem])) = true :=
  ⟨by decide,
    ⟨by decide,
      c3_progress_counter.1 [CounterOp.addItems 2, CounterOp.completeItem,
        CounterOp.completeItem] 50 (by decide)⟩,
    c3_progress_counter.2.1 [CounterOp.addItems 2, CounterOp.completeItem,
      CounterOp.completeItem],
    c3_progress_counter.2.2 [CounterOp.addItems 2]
      [CounterOp.completeItem, CounterOp.completeItem]
      (by intro op h; simp at h; exact ⟨2, h⟩)
      (by intro op h; simp at h; exact h)⟩

/-- Claim C3, counterexample to the claim as stated: the sequence
`addItems 1; completeItem; addItems 1` emits `[0, 99, 50]`, which is not
non-decreasing — queueing more work after a completion lowers the computed
percentage. -/
theorem c3_progress_counter_counterexample :
    counterEmissions [CounterOp.addItems 1, CounterOp.completeItem,
      CounterOp.addItems 1] = [0, 99, 50] ∧
    chainLe [0, 99, 50] = false := by
  exact ⟨by decide, by decide⟩

/-! ## Claim C10 -/

/-- Claim C10: while no `addItems` call has raised the total above zero, the
counter emits nothing at all — the percentage computation is guarded by the
early return on `total = 0`, so no division of a live report by zero ever
happens. -/
theorem c10_zero_total_guard :
    ∀ ops : List CounterOp,
      (∀ op ∈ ops, op = CounterOp.completeItem ∨ op = CounterOp.addItems 0) →
      counterEmissions ops = [] := by
  have key : ∀ (ops : List CounterOp) (s : SerializeCounter), s.total = 0 →
      (∀ op ∈ ops, op = CounterOp.completeItem ∨ op = CounterOp.addItems 0) →
      (SerializeCounter.run s ops).2 = [] ∧
      (SerializeCounter.run s ops).1.total = 0 := by
    intro ops
    induction ops with
    | nil => intro s h0 _; exact ⟨by simp [SerializeCounter.run], h0⟩
    | cons op ops ih =>
      intro s h0 hall
      have hnext : ∀ (t : SerializeCounter),
          SerializeCounter.step s op = (t, none) → t.total = 0 →
          (SerializeCounter.run s (op :: ops)).2 = [] ∧
          (SerializeCounter.run s (op :: ops)).1.total = 0 := by
        intro t hstep ht
        simp only [SerializeCounter.run, hstep]
        obtain ⟨h1, h2⟩ := ih t ht (fun op hm => hall op (by simp [hm]))
        exact ⟨by simpa using h1, h2⟩
      rcases hall op (by simp) with hop | hop <;> subst hop
      · have hrep : SerializeCounter.report
            { s with completed := s.completed + 1 } =
            ({ s with completed := s.completed + 1 }, none) := by
          unfold SerializeCounter.report
          rw [if_pos h0]
        exact hnext { s with completed := s.completed + 1 }
          (by simp only [SerializeCounter.step]; exact hrep) h0
      · have hrep : SerializeCounter.report { s with total := s.total + 0 } =
            ({ s with total := s.total + 0 }, none) := by
          unfold SerializeCounter.report
          rw [if_pos (by simpa using h0)]
        exact hnext { s with total := s.total + 0 }
          (by simp only [SerializeCounter.step]; exact hrep) (by simpa using h0)
  intro ops hall
  exact (key ops SerializeCounter.init rfl hall).1

/-- Claim C10, witness: completions and zero-size additions on a fresh
counter emit nothing. -/
theorem c10_zero_total_guard_witness :
    (∀ op ∈ ([CounterOp.completeItem, CounterOp.addItems 0,
        CounterOp.completeItem] : List CounterOp),
      op = CounterOp.completeItem ∨ op = CounterOp.addItems 0) ∧
    counterEmissions [CounterOp.completeItem, CounterOp.addItems 0,
      CounterOp.completeItem] = [] :=
  ⟨by decide,
    c10_zero_total_guard [CounterOp.completeItem, CounterOp.addItems 0,
      CounterOp.completeItem] (by decide)⟩
